import Mathlib

/-!
Shallow embedding of the LED stack game (src/Stack_game.ino).

The game state is the set of global variables of the sketch; the
operations are pure functions on that state.  Calls to the Arduino
random(0, WIDTH - BLOCK_WIDTH + 1) primitive are modelled by passing the
value it returns as an explicit argument (named rnd); its contract is
that the returned value lies in [0, WIDTH - BLOCK_WIDTH + 1).
Display and serial output are ignored except for the list of logical
points the block-drawing loop of updateDisplay emits, which is needed
for the rendering-safety claim.
-/

namespace StackGame

/-- Number of columns of the grid (WIDTH in the sketch). -/
def WIDTH : Nat := 8

/-- Number of rows of the grid (HEIGHT in the sketch). -/
def HEIGHT : Nat := 32

/-- Width of the moving block in LEDs (BLOCK_WIDTH in the sketch). -/
def BLOCK_WIDTH : Nat := 4

/-- Initial move delay in milliseconds. -/
def INIT_DELAY : Nat := 200

/-- Minimum move delay in milliseconds (the floor in dropBlock). -/
def MIN_DELAY : Nat := 50

/-- Largest legal leftmost column of the block: WIDTH - BLOCK_WIDTH. -/
def maxPos : Int := (WIDTH : Int) - (BLOCK_WIDTH : Int)

/-- The global game variables of the sketch.  blockPos is an int in the
source (it can transiently be driven negative before clamping), so it is
an Int here; the grid is a total function holding 0 or 1 like the int
array stack[HEIGHT][WIDTH]. -/
structure GameState where
  blockPos : Int
  blockRow : Nat
  blockMoving : Bool
  stack : Nat → Nat → Nat
  stackHeight : Nat
  gameOver : Bool
  moveDelay : Nat
  moveRight : Bool
  testMode : Bool
  testRow : Nat

/-- Embedding of resetGame(): clear the grid, respawn the block at the
random position rnd, reset every scalar. -/
def resetGame (rnd : Nat) : GameState where
  blockPos := (rnd : Int)
  blockRow := 0
  blockMoving := true
  stack := fun _ _ => 0
  stackHeight := 0
  gameOver := false
  moveDelay := INIT_DELAY
  moveRight := true
  testMode := false
  testRow := 0

/-- Writing a 1 into the grid at (r, c), as stack[r][c] = 1 does. -/
def placeAt (g : Nat → Nat → Nat) (r c : Nat) : Nat → Nat → Nat :=
  fun r' c' => if r' = r ∧ c' = c then 1 else g r' c'

/-- Condition under which the loop body of dropBlock places column col:
the column is on the grid and either the block is at row 0 or the cell
directly below is occupied. -/
def lands (g : Nat → Nat → Nat) (row : Nat) (col : Int) : Prop :=
  (0 ≤ col ∧ col < (WIDTH : Int)) ∧ (row = 0 ∨ g (row - 1) col.toNat = 1)

instance (g : Nat → Nat → Nat) (row : Nat) (col : Int) :
    Decidable (lands g row col) := by
  unfold lands; infer_instance

/-- One iteration of the placement loop of dropBlock: the accumulator
carries the grid together with the placed flag. -/
def placeStep (row : Nat) (acc : (Nat → Nat → Nat) × Bool) (col : Int) :
    (Nat → Nat → Nat) × Bool :=
  if 0 ≤ col ∧ col < (WIDTH : Int) then
    if row = 0 ∨ acc.1 (row - 1) col.toNat = 1 then
      (placeAt acc.1 row col.toNat, true)
    else acc
  else acc

/-- The columns swept by the for loop of dropBlock and of the
block-drawing loop of updateDisplay: blockPos, ..., blockPos + 3. -/
def spanCols (p : Int) : List Int :=
  (List.range BLOCK_WIDTH).map (fun i => p + (i : Int))

/-- The placement phase of dropBlock (lines 121-132 of the sketch):
if the block is at row 0 or the stack is nonempty, run the placement
loop over the block span; otherwise nothing is placed. -/
def placeScan (st : GameState) : (Nat → Nat → Nat) × Bool :=
  if st.blockRow = 0 ∨ 0 < st.stackHeight then
    (spanCols st.blockPos).foldl (placeStep st.blockRow) (st.stack, false)
  else (st.stack, false)

/-- The stack height computed by dropBlock after a non-missed drop. -/
def newHeight (st : GameState) : Nat :=
  if st.stackHeight ≤ st.blockRow then st.blockRow + 1 else st.stackHeight

/-- Embedding of dropBlock(rnd): place the overlapping columns, detect a
miss, raise the height watermark, detect topping out, otherwise advance
to the next row, respawn at the random position rnd and speed up. -/
def dropBlock (st : GameState) (rnd : Nat) : GameState :=
  if (placeScan st).2 = false ∧ 0 < st.blockRow then
    { st with
      blockMoving := false, stack := (placeScan st).1, gameOver := true }
  else
    if HEIGHT ≤ newHeight st then
      { st with
        blockMoving := false, stack := (placeScan st).1,
        stackHeight := newHeight st, gameOver := true }
    else
      { st with
        blockMoving := true, stack := (placeScan st).1,
        stackHeight := newHeight st, blockRow := st.blockRow + 1,
        blockPos := (rnd : Int),
        moveDelay := max MIN_DELAY (st.moveDelay - 10) }

/-- The candidate position after one motion step: blockPos plus or minus
one according to the direction. -/
def nextPos (st : GameState) : Int :=
  st.blockPos + (if st.moveRight then 1 else -1)

/-- Embedding of one horizontal motion step of loop() (lines 225-236):
advance blockPos by the direction, clamp at 0 and at WIDTH - BLOCK_WIDTH
and flip the direction at either boundary. -/
def moveBlock (st : GameState) : GameState :=
  if nextPos st ≤ 0 then { st with blockPos := 0, moveRight := true }
  else if maxPos ≤ nextPos st then
    { st with blockPos := maxPos, moveRight := false }
  else { st with blockPos := nextPos st }

/-- Embedding of the serial t command of loop(): toggle test mode.
Entering sets testRow to 0 and changes nothing else; exiting calls
resetGame. -/
def toggleTestMode (st : GameState) (rnd : Nat) : GameState :=
  if st.testMode = true then resetGame rnd
  else { st with testMode := true, testRow := 0 }

/-- Embedding of a cursor-advance event in test mode (serial n command
or button press while testMode): testRow advances modulo HEIGHT. -/
def advanceTestRow (st : GameState) : GameState :=
  if st.testMode = true then { st with testRow := (st.testRow + 1) % HEIGHT }
  else st

/-- The logical points emitted by the block-drawing loop of
updateDisplay (lines 98-107): one point per in-range column of the block
span, only while the game is running and the block is moving. -/
def blockCells (st : GameState) : List (Nat × Nat) :=
  if st.gameOver = false ∧ st.blockMoving = true then
    (spanCols st.blockPos).filterMap
      (fun c => if 0 ≤ c ∧ c < (WIDTH : Int) then some (st.blockRow, c.toNat)
                else none)
  else []

/-- Iterating dropBlock over a list of random positions, used to state
monotonicity of moveDelay across a sequence of drops. -/
def runDrops (st : GameState) (rs : List Nat) : GameState :=
  rs.foldl dropBlock st

/-- Grid well-formedness: every occupied cell lies strictly below the
height watermark, and when the watermark is positive its top row holds
at least one occupied cell.  This is the invariant stated in the spec:
stackHeight is one plus the highest row that ever received a placement,
or 0 if none. -/
def heightWF (st : GameState) : Prop :=
  (∀ r c, st.stack r c = 1 → r < st.stackHeight) ∧
  (0 < st.stackHeight →
    ∃ c, c < WIDTH ∧ st.stack (st.stackHeight - 1) c = 1)

/-! Characterization of the placement loop. -/

lemma placeStep_fst_off (row : Nat) (acc : (Nat → Nat → Nat) × Bool)
    (col : Int) (r' c' : Nat) (h : r' ≠ row) :
    (placeStep row acc col).1 r' c' = acc.1 r' c' := by
  unfold placeStep placeAt
  split_ifs with h1 h2
  · simp [h]
  · rfl
  · rfl

lemma foldl_placeStep_fst_off (row : Nat) (L : List Int)
    (acc : (Nat → Nat → Nat) × Bool) (r' c' : Nat) (h : r' ≠ row) :
    (L.foldl (placeStep row) acc).1 r' c' = acc.1 r' c' := by
  induction L generalizing acc with
  | nil => rfl
  | cons col L ih =>
    rw [List.foldl_cons, ih (placeStep row acc col),
      placeStep_fst_off row acc col r' c' h]

lemma lands_congr (g1 g2 : Nat → Nat → Nat) (row : Nat) (col : Int)
    (h : row ≠ 0 → ∀ c, g1 (row - 1) c = g2 (row - 1) c) :
    lands g1 row col ↔ lands g2 row col := by
  unfold lands
  rcases Nat.eq_zero_or_pos row with h0 | h0
  · simp [h0]
  · rw [h (Nat.pos_iff_ne_zero.mp h0) col.toNat]

lemma placeStep_fst_at (row : Nat) (acc : (Nat → Nat → Nat) × Bool)
    (col : Int) (c' : Nat) :
    (placeStep row acc col).1 row c' =
      if lands acc.1 row col ∧ col.toNat = c' then 1 else acc.1 row c' := by
  by_cases hin : 0 ≤ col ∧ col < (WIDTH : Int)
  · by_cases hld : row = 0 ∨ acc.1 (row - 1) col.toNat = 1
    · have hstep : placeStep row acc col = (placeAt acc.1 row col.toNat, true) := by
        unfold placeStep
        rw [if_pos hin, if_pos hld]
      rw [hstep]
      by_cases hc : col.toNat = c'
      · rw [if_pos ⟨⟨hin, hld⟩, hc⟩]
        show placeAt acc.1 row col.toNat row c' = 1
        unfold placeAt
        rw [if_pos ⟨rfl, hc.symm⟩]
      · rw [if_neg (fun hk => hc hk.2)]
        show placeAt acc.1 row col.toNat row c' = acc.1 row c'
        unfold placeAt
        rw [if_neg (fun hk => hc hk.2.symm)]
    · have hstep : placeStep row acc col = acc := by
        unfold placeStep
        rw [if_pos hin, if_neg hld]
      rw [hstep, if_neg (fun hk => hld hk.1.2)]
  · have hstep : placeStep row acc col = acc := by
      unfold placeStep
      rw [if_neg hin]
    rw [hstep, if_neg (fun hk => hin hk.1.1)]

lemma placeStep_snd (row : Nat) (acc : (Nat → Nat → Nat) × Bool)
    (col : Int) :
    (placeStep row acc col).2 = true ↔
      acc.2 = true ∨ lands acc.1 row col := by
  by_cases hin : 0 ≤ col ∧ col < (WIDTH : Int)
  · by_cases hld : row = 0 ∨ acc.1 (row - 1) col.toNat = 1 <;>
      simp [placeStep, lands, hin, hld]
  · simp [placeStep, lands, hin]

lemma foldl_placeStep_char (row : Nat) (L : List Int) :
    ∀ (acc : (Nat → Nat → Nat) × Bool) (g0 : Nat → Nat → Nat),
      (row ≠ 0 → ∀ c, acc.1 (row - 1) c = g0 (row - 1) c) →
      (∀ c', (L.foldl (placeStep row) acc).1 row c' =
        if ∃ col ∈ L, lands g0 row col ∧ col.toNat = c' then 1
        else acc.1 row c') ∧
      ((L.foldl (placeStep row) acc).2 = true ↔
        acc.2 = true ∨ ∃ col ∈ L, lands g0 row col) := by
  induction L with
  | nil =>
    intro acc g0 _
    refine ⟨fun c' => by simp, by simp⟩
  | cons col L ih =>
    intro acc g0 hoff
    have hoff' : row ≠ 0 →
        ∀ c, (placeStep row acc col).1 (row - 1) c = g0 (row - 1) c := by
      intro hne c
      rw [placeStep_fst_off row acc col _ c (by omega)]
      exact hoff hne c
    obtain ⟨ihf, ihs⟩ := ih (placeStep row acc col) g0 hoff'
    have hcongr : lands acc.1 row col ↔ lands g0 row col :=
      lands_congr acc.1 g0 row col hoff
    constructor
    · intro c'
      rw [List.foldl_cons, ihf c', placeStep_fst_at row acc col c']
      by_cases hA : ∃ col2 ∈ L, lands g0 row col2 ∧ col2.toNat = c' <;>
        by_cases hB : lands g0 row col ∧ col.toNat = c' <;>
          simp [hA, hB, hcongr, List.exists_mem_cons_iff]
    · rw [List.foldl_cons, ihs, placeStep_snd row acc col]
      rw [hcongr]
      simp [List.exists_mem_cons_iff, or_assoc]

lemma placeScan_fst_off (st : GameState) (r' c' : Nat)
    (h : r' ≠ st.blockRow) :
    (placeScan st).1 r' c' = st.stack r' c' := by
  unfold placeScan
  split_ifs with hg
  · exact foldl_placeStep_fst_off st.blockRow _ _ r' c' h
  · rfl

lemma placeScan_fst_at (st : GameState)
    (hg : st.blockRow = 0 ∨ 0 < st.stackHeight) (c' : Nat) :
    (placeScan st).1 st.blockRow c' =
      if ∃ col ∈ spanCols st.blockPos,
          lands st.stack st.blockRow col ∧ col.toNat = c' then 1
      else st.stack st.blockRow c' := by
  unfold placeScan
  rw [if_pos hg]
  exact (foldl_placeStep_char st.blockRow (spanCols st.blockPos)
    (st.stack, false) st.stack (fun _ _ => rfl)).1 c'

lemma placeScan_snd (st : GameState) :
    (placeScan st).2 = true ↔
      (st.blockRow = 0 ∨ 0 < st.stackHeight) ∧
      ∃ col ∈ spanCols st.blockPos, lands st.stack st.blockRow col := by
  unfold placeScan
  split_ifs with hg
  · rw [(foldl_placeStep_char st.blockRow (spanCols st.blockPos)
      (st.stack, false) st.stack (fun _ _ => rfl)).2]
    simp [hg]
  · simp [hg]

lemma placeScan_fst_of_not_placed (st : GameState)
    (h : (placeScan st).2 = false) :
    ∀ r c, (placeScan st).1 r c = st.stack r c := by
  intro r c
  by_cases hr : r = st.blockRow
  · subst hr
    by_cases hg : st.blockRow = 0 ∨ 0 < st.stackHeight
    · rw [placeScan_fst_at st hg c, if_neg]
      intro hex
      obtain ⟨col, hm, hl, _⟩ := hex
      have : (placeScan st).2 = true :=
        (placeScan_snd st).mpr ⟨hg, col, hm, hl⟩
      rw [h] at this
      exact Bool.false_ne_true this
    · unfold placeScan
      rw [if_neg hg]
  · exact placeScan_fst_off st r c hr

lemma dropBlock_stack (st : GameState) (rnd : Nat) :
    (dropBlock st rnd).stack = (placeScan st).1 := by
  unfold dropBlock
  split_ifs <;> rfl

lemma newHeight_eq_max (st : GameState) :
    newHeight st = max st.stackHeight (st.blockRow + 1) := by
  unfold newHeight
  split_ifs with h <;> omega

/-! Concrete states used to evaluate the definitions on the scenarios of
the spec (section 8) and as witnesses. -/

/-- Grid with row 0 occupied at columns 2..5, as in the worked example
of the spec. -/
def exStack : Nat → Nat → Nat := fun r c =>
  if r = 0 ∧ 2 ≤ c ∧ c < 6 then 1 else 0

/-- State after the first drop of the worked example of the spec: row 0
holds columns 2..5, the new block is at row 1 spanning columns 0..3. -/
def stEx : GameState where
  blockPos := 0
  blockRow := 1
  blockMoving := true
  stack := exStack
  stackHeight := 1
  gameOver := false
  moveDelay := 190
  moveRight := true
  testMode := false
  testRow := 0

/-- Grid fully occupied on rows 0..30. -/
def toppedStack : Nat → Nat → Nat := fun r _ => if r < 31 then 1 else 0

/-- State about to top out: 31 rows are full and the block is at the top
row 31. -/
def stTop : GameState where
  blockPos := 0
  blockRow := 31
  blockMoving := true
  stack := toppedStack
  stackHeight := 31
  gameOver := false
  moveDelay := 50
  moveRight := true
  testMode := false
  testRow := 0

/-- Grid with row 0 occupied at columns 0..3. -/
def missStack : Nat → Nat → Nat := fun r c => if r = 0 ∧ c < 4 then 1 else 0

/-- State in which the block at row 1 spans columns 4..7 while the stack
below occupies columns 0..3: the drop misses entirely. -/
def stMiss : GameState where
  blockPos := 4
  blockRow := 1
  blockMoving := true
  stack := missStack
  stackHeight := 1
  gameOver := false
  moveDelay := 200
  moveRight := true
  testMode := false
  testRow := 0

/-! Further helper lemmas. -/

lemma spanCols_eq (p : Int) : spanCols p = [p, p + 1, p + 2, p + 3] := by
  show (List.range 4).map (fun i => p + (i : Int)) = _
  norm_num [List.range_succ]

lemma mem_spanCols {p col : Int} :
    col ∈ spanCols p ↔ p ≤ col ∧ col < p + (BLOCK_WIDTH : Int) := by
  rw [spanCols_eq, show ((BLOCK_WIDTH : Int)) = 4 from rfl]
  simp only [List.mem_cons, List.not_mem_nil, or_false]
  omega

lemma maxPos_eq : maxPos = 4 := by decide

lemma dropBlock_moveDelay_bounds (st : GameState) (rnd : Nat)
    (hd : MIN_DELAY ≤ st.moveDelay) :
    MIN_DELAY ≤ (dropBlock st rnd).moveDelay ∧
    (dropBlock st rnd).moveDelay ≤ st.moveDelay := by
  unfold dropBlock
  split_ifs with h1 h2
  · exact ⟨hd, le_refl _⟩
  · exact ⟨hd, le_refl _⟩
  · refine ⟨le_max_left _ _, max_le hd (Nat.sub_le _ _)⟩

lemma runDrops_moveDelay_bounds (rs : List Nat) :
    ∀ st : GameState, MIN_DELAY ≤ st.moveDelay →
      MIN_DELAY ≤ (runDrops st rs).moveDelay ∧
      (runDrops st rs).moveDelay ≤ st.moveDelay := by
  induction rs with
  | nil => exact fun st hd => ⟨hd, le_refl _⟩
  | cons r rs ih =>
    intro st hd
    have h1 := dropBlock_moveDelay_bounds st r hd
    have h2 := ih (dropBlock st r) h1.1
    exact ⟨h2.1, le_trans h2.2 h1.2⟩

/-- State in diagnostic mode with the cursor on the last row. -/
def stDiag : GameState where
  blockPos := 4
  blockRow := 1
  blockMoving := true
  stack := missStack
  stackHeight := 1
  gameOver := false
  moveDelay := 200
  moveRight := true
  testMode := true
  testRow := 31

example : (dropBlock stEx 3).stackHeight = 2 := by decide
example : (dropBlock stEx 3).stack 1 2 = 1 := by decide
example : (dropBlock stEx 3).stack 1 3 = 1 := by decide
example : (dropBlock stEx 3).stack 1 0 = 0 := by decide
example : (dropBlock stEx 3).gameOver = false := by decide
example : (dropBlock stEx 3).blockRow = 2 := by decide
example : (dropBlock stEx 3).moveDelay = 180 := by decide
example : (dropBlock stTop 0).gameOver = true := by decide
example : (dropBlock stTop 0).blockRow = 31 := by decide
example : (placeScan stTop).2 = true := by decide
example : (dropBlock stMiss 0).gameOver = true := by decide
example : (dropBlock stMiss 0).stackHeight = 1 := by decide
example : (dropBlock stMiss 0).stack 1 4 = 0 := by decide
example : (dropBlock (resetGame 2) 3).stackHeight = 1 := by decide
example : (dropBlock (resetGame 2) 3).stack 0 2 = 1 := by decide
example : (dropBlock (resetGame 2) 3).stack 0 1 = 0 := by decide
example : (moveBlock (resetGame 2)).blockPos = 3 := by decide
example : (moveBlock stMiss).blockPos = 4 := by decide
example : (moveBlock stMiss).moveRight = false := by decide

/-! Claim theorems. -/

/-- C4: one horizontal motion step of the loop adds plus or minus one to
blockPos according to the direction, clamps the result into the range
[0, WIDTH - BLOCK_WIDTH], and flips the direction exactly at a boundary:
after the step the position is inside the range, position 0 forces the
direction right, position WIDTH - BLOCK_WIDTH forces the direction left,
and away from both boundaries the position equals the unclamped step and
the direction is unchanged. -/
theorem C4_horizontal_motion (st : GameState) :
    (moveBlock st).blockPos = min maxPos (max 0 (nextPos st)) ∧
    0 ≤ (moveBlock st).blockPos ∧ (moveBlock st).blockPos ≤ maxPos ∧
    ((moveBlock st).blockPos = 0 → (moveBlock st).moveRight = true) ∧
    ((moveBlock st).blockPos = maxPos → (moveBlock st).moveRight = false) ∧
    (0 < (moveBlock st).blockPos → (moveBlock st).blockPos < maxPos →
      (moveBlock st).blockPos = nextPos st ∧
      (moveBlock st).moveRight = st.moveRight) := by
  have hmax := maxPos_eq
  unfold moveBlock
  split_ifs with h1 h2
  · dsimp only
    refine ⟨?_, le_refl 0, by omega, fun _ => rfl, ?_, ?_⟩
    · rw [max_eq_left h1, min_eq_right (by omega)]
    · intro h
      omega
    · intro h
      omega
  · dsimp only
    refine ⟨?_, by omega, le_refl _, ?_, fun _ => rfl, ?_⟩
    · rw [max_eq_right (by omega), min_eq_left h2]
    · intro h
      omega
    · intro _ h
      omega
  · dsimp only
    refine ⟨?_, by omega, by omega, ?_, ?_, fun _ _ => ⟨rfl, rfl⟩⟩
    · rw [max_eq_right (by omega), min_eq_right (by omega)]
    · intro h
      omega
    · intro h
      omega

/-- C4 witness: the motion step evaluated at the concrete state stMiss,
whose block sits at the right boundary moving right: the position is
clamped to WIDTH - BLOCK_WIDTH and the direction flips to left. -/
theorem C4_horizontal_motion_witness :
    (moveBlock stMiss).blockPos = min maxPos (max 0 (nextPos stMiss)) ∧
    (moveBlock stMiss).blockPos = maxPos ∧
    (moveBlock stMiss).moveRight = false :=
  ⟨(C4_horizontal_motion stMiss).1,
   by decide,
   (C4_horizontal_motion stMiss).2.2.2.2.1 (by decide)⟩

/-- C2: a drop at a row above 0 where no column of the block span has an
occupied cell directly below it sets gameOver and leaves every grid cell
and the stack height watermark unchanged. -/
theorem C2_missed_drop (st : GameState) (rnd : Nat)
    (hr : 0 < st.blockRow)
    (hmiss : ∀ c : Nat, c < WIDTH → st.blockPos ≤ (c : Int) →
      (c : Int) < st.blockPos + (BLOCK_WIDTH : Int) →
      st.stack (st.blockRow - 1) c ≠ 1) :
    (dropBlock st rnd).gameOver = true ∧
    (∀ r c, (dropBlock st rnd).stack r c = st.stack r c) ∧
    (dropBlock st rnd).stackHeight = st.stackHeight := by
  have hnl : ∀ col ∈ spanCols st.blockPos, ¬ lands st.stack st.blockRow col := by
    intro col hcol hl
    obtain ⟨⟨hc0, hc8⟩, hor⟩ := hl
    rcases hor with h00 | hocc
    · omega
    · obtain ⟨hlo, hhi⟩ := mem_spanCols.mp hcol
      have hcn : ((col.toNat : Int)) = col := Int.toNat_of_nonneg hc0
      refine hmiss col.toNat (by omega) (by omega) (by omega) hocc
  have hpl : (placeScan st).2 = false := by
    cases hb : (placeScan st).2 with
    | false => rfl
    | true =>
      obtain ⟨_, col, hcol, hl⟩ := (placeScan_snd st).mp hb
      exact absurd hl (hnl col hcol)
  unfold dropBlock
  rw [if_pos ⟨hpl, hr⟩]
  refine ⟨rfl, ?_, rfl⟩
  intro r c
  exact placeScan_fst_of_not_placed st hpl r c

/-- C2 witness: the drop evaluated at the concrete state stMiss, whose
block at row 1 spans columns 4..7 while the stack occupies only columns
0..3 of row 0: the game ends and the grid cell (1,4) and the stack
height are untouched. -/
theorem C2_missed_drop_witness :
    (dropBlock stMiss 0).gameOver = true ∧
    (dropBlock stMiss 0).stack 1 4 = stMiss.stack 1 4 ∧
    (dropBlock stMiss 0).stackHeight = stMiss.stackHeight := by
  have h := C2_missed_drop stMiss 0 (by decide) (by decide)
  exact ⟨h.1, h.2.1 1 4, h.2.2⟩

/-- C6: resetGame leaves every grid cell unoccupied, zeroes the stack
height, restores the initial 200 ms move delay, clears the game-over and
test-mode flags, reactivates the block at row 0 at a valid random
position, and exiting diagnostic mode performs exactly this reset. -/
theorem C6_reset_postconditions (rnd : Nat) (st : GameState)
    (hrnd : rnd < WIDTH - BLOCK_WIDTH + 1) :
    (∀ r c, (resetGame rnd).stack r c = 0) ∧
    (resetGame rnd).stackHeight = 0 ∧
    (resetGame rnd).moveDelay = 200 ∧
    (resetGame rnd).gameOver = false ∧
    (resetGame rnd).testMode = false ∧
    (resetGame rnd).blockMoving = true ∧
    (resetGame rnd).blockRow = 0 ∧
    0 ≤ (resetGame rnd).blockPos ∧ (resetGame rnd).blockPos ≤ maxPos ∧
    (st.testMode = true → toggleTestMode st rnd = resetGame rnd) := by
  have hmax := maxPos_eq
  have h8 : WIDTH - BLOCK_WIDTH + 1 = 5 := by decide
  refine ⟨fun _ _ => rfl, rfl, rfl, rfl, rfl, rfl, rfl, ?_, ?_, ?_⟩
  · exact Int.natCast_nonneg rnd
  · show (rnd : Int) ≤ maxPos
    omega
  · intro h
    unfold toggleTestMode
    rw [if_pos h]

/-- C6 witness: the reset evaluated at the concrete random position 2
and at the test-mode state obtained by entering diagnostic mode from
stMiss. -/
theorem C6_reset_postconditions_witness :
    (resetGame 2).stack 0 0 = 0 ∧
    (resetGame 2).stackHeight = 0 ∧
    (resetGame 2).moveDelay = 200 ∧
    (resetGame 2).gameOver = false ∧
    (resetGame 2).blockRow = 0 ∧
    0 ≤ (resetGame 2).blockPos ∧ (resetGame 2).blockPos ≤ maxPos := by
  have h := C6_reset_postconditions 2 stMiss (by decide)
  exact ⟨h.1 0 0, h.2.1, h.2.2.1, h.2.2.2.1, h.2.2.2.2.2.2.1,
    h.2.2.2.2.2.2.2.1, h.2.2.2.2.2.2.2.2.1⟩

/-- C7: the move delay never drops below the 50 ms floor and never
increases: a single drop keeps it in [MIN_DELAY, current], a successful
surviving drop decreases it by exactly 10 ms clamped at the floor, a
drop that ends the game leaves it unchanged, any sequence of drops is
monotonically non-increasing and floored, and resetGame restores the
initial 200 ms value. -/
theorem C7_moveDelay_monotone (st : GameState) (rnd : Nat) (rs : List Nat)
    (hd : MIN_DELAY ≤ st.moveDelay) :
    MIN_DELAY ≤ (dropBlock st rnd).moveDelay ∧
    (dropBlock st rnd).moveDelay ≤ st.moveDelay ∧
    (¬((placeScan st).2 = false ∧ 0 < st.blockRow) → newHeight st < HEIGHT →
      (dropBlock st rnd).moveDelay = max MIN_DELAY (st.moveDelay - 10)) ∧
    ((dropBlock st rnd).gameOver = st.gameOver ∨
      (dropBlock st rnd).moveDelay = st.moveDelay) ∧
    (MIN_DELAY ≤ (runDrops st rs).moveDelay ∧
      (runDrops st rs).moveDelay ≤ st.moveDelay) ∧
    (resetGame rnd).moveDelay = INIT_DELAY ∧ MIN_DELAY ≤ INIT_DELAY := by
  obtain ⟨hb1, hb2⟩ := dropBlock_moveDelay_bounds st rnd hd
  refine ⟨hb1, hb2, ?_, ?_, runDrops_moveDelay_bounds rs st hd, rfl, by decide⟩
  · intro hok htop
    unfold dropBlock
    rw [if_neg hok, if_neg (by omega)]
  · unfold dropBlock
    split_ifs with h1 h2
    · exact Or.inr rfl
    · exact Or.inr rfl
    · exact Or.inl rfl

/-- C7 witness: the delay evolution evaluated at the worked-example
state stEx with delay 190: the surviving drop lowers it to 180, and a
sequence of two further drops stays at or above the floor. -/
theorem C7_moveDelay_monotone_witness :
    MIN_DELAY ≤ (dropBlock stEx 3).moveDelay ∧
    (dropBlock stEx 3).moveDelay ≤ stEx.moveDelay ∧
    (dropBlock stEx 3).moveDelay = max MIN_DELAY (stEx.moveDelay - 10) := by
  have h := C7_moveDelay_monotone stEx 3 [] (by decide)
  exact ⟨h.1, h.2.1, h.2.2.1 (by decide) (by decide)⟩

/-- C8: diagnostic mode is orthogonal to the game state: entering it
changes only the testMode flag and the cursor, a cursor advance steps
testRow to (testRow + 1) mod HEIGHT (wrapping HEIGHT - 1 back to 0)
while touching nothing else, and exiting performs exactly the full game
reset together with its postconditions. -/
theorem C8_diagnostic_mode (st : GameState) (rnd : Nat) :
    (st.testMode = false →
      (toggleTestMode st rnd).stack = st.stack ∧
      (toggleTestMode st rnd).stackHeight = st.stackHeight ∧
      (toggleTestMode st rnd).blockPos = st.blockPos ∧
      (toggleTestMode st rnd).blockRow = st.blockRow ∧
      (toggleTestMode st rnd).blockMoving = st.blockMoving ∧
      (toggleTestMode st rnd).moveRight = st.moveRight ∧
      (toggleTestMode st rnd).gameOver = st.gameOver ∧
      (toggleTestMode st rnd).moveDelay = st.moveDelay ∧
      (toggleTestMode st rnd).testMode = true ∧
      (toggleTestMode st rnd).testRow = 0) ∧
    (st.testMode = true →
      (advanceTestRow st).testRow = (st.testRow + 1) % HEIGHT ∧
      (advanceTestRow st).stack = st.stack ∧
      (advanceTestRow st).stackHeight = st.stackHeight ∧
      (advanceTestRow st).blockPos = st.blockPos ∧
      (advanceTestRow st).blockRow = st.blockRow ∧
      (advanceTestRow st).blockMoving = st.blockMoving ∧
      (advanceTestRow st).gameOver = st.gameOver ∧
      (st.testRow = HEIGHT - 1 → (advanceTestRow st).testRow = 0)) ∧
    (st.testMode = true →
      toggleTestMode st rnd = resetGame rnd ∧
      (∀ r c, (toggleTestMode st rnd).stack r c = 0) ∧
      (toggleTestMode st rnd).stackHeight = 0 ∧
      (toggleTestMode st rnd).moveDelay = INIT_DELAY ∧
      (toggleTestMode st rnd).gameOver = false ∧
      (toggleTestMode st rnd).blockMoving = true ∧
      (toggleTestMode st rnd).blockRow = 0 ∧
      (toggleTestMode st rnd).testMode = false) := by
  refine ⟨?_, ?_, ?_⟩
  · intro h
    unfold toggleTestMode
    rw [if_neg (by rw [h]; exact Bool.false_ne_true)]
    exact ⟨rfl, rfl, rfl, rfl, rfl, rfl, rfl, rfl, rfl, rfl⟩
  · intro h
    unfold advanceTestRow
    rw [if_pos h]
    refine ⟨rfl, rfl, rfl, rfl, rfl, rfl, rfl, ?_⟩
    intro hw
    dsimp only
    rw [hw]
    decide
  · intro h
    unfold toggleTestMode
    rw [if_pos h]
    exact ⟨rfl, fun _ _ => rfl, rfl, rfl, rfl, rfl, rfl, rfl⟩

/-- C8 witness: diagnostic mode evaluated concretely from stMiss:
entering keeps the grid cell (0,0) and the block position, advancing
from cursor 31 wraps to 0, and exiting resets the game. -/
theorem C8_diagnostic_mode_witness :
    (toggleTestMode stMiss 0).stackHeight = stMiss.stackHeight ∧
    (toggleTestMode stMiss 0).blockPos = stMiss.blockPos ∧
    (toggleTestMode stMiss 0).testMode = true ∧
    (advanceTestRow stDiag).testRow = 0 ∧
    (toggleTestMode stDiag 2).stackHeight = 0 := by
  have h1 := (C8_diagnostic_mode stMiss 0).1 (by decide)
  have h2 := (C8_diagnostic_mode stDiag 2).2.1 (by decide)
  have h3 := (C8_diagnostic_mode stDiag 2).2.2 (by decide)
  exact ⟨h1.2.1, h1.2.2.1, h1.2.2.2.2.2.2.2.2.1, h2.2.2.2.2.2.2.2 (by decide),
    h3.2.2.1⟩

/-- C9: grid accesses are guarded: every point emitted for the block by
the render loop has a column inside [0, WIDTH), the placement loop skips
any out-of-range column without reading or writing the grid, a drop
never changes any cell with column at or beyond WIDTH, and under the
position invariant every column of the span is in range, so the
out-of-range branch is unreachable. -/
theorem C9_render_and_drop_bounds (st : GameState) (rnd : Nat) :
    (∀ pt ∈ blockCells st, pt.2 < WIDTH) ∧
    (∀ (row : Nat) (acc : (Nat → Nat → Nat) × Bool) (col : Int),
      ¬(0 ≤ col ∧ col < (WIDTH : Int)) → placeStep row acc col = acc) ∧
    (∀ r c, WIDTH ≤ c → (dropBlock st rnd).stack r c = st.stack r c) ∧
    (0 ≤ st.blockPos → st.blockPos ≤ maxPos →
      (∀ col ∈ spanCols st.blockPos, 0 ≤ col ∧ col < (WIDTH : Int)) ∧
      (st.gameOver = false → st.blockMoving = true →
        (blockCells st).length = BLOCK_WIDTH)) := by
  have hW : ((WIDTH : Int)) = 8 := rfl
  have hWn : WIDTH = 8 := rfl
  have hB : ((BLOCK_WIDTH : Int)) = 4 := rfl
  have hMP := maxPos_eq
  refine ⟨?_, ?_, ?_, ?_⟩
  · intro pt hpt
    unfold blockCells at hpt
    split_ifs at hpt
    · rw [List.mem_filterMap] at hpt
      obtain ⟨c, _, heq⟩ := hpt
      split_ifs at heq with hin
      obtain ⟨h0, h8⟩ := hin
      injection heq with heq
      subst heq
      show c.toNat < WIDTH
      omega
    · exact absurd hpt (List.not_mem_nil pt)
  · intro row acc col h
    unfold placeStep
    rw [if_neg h]
  · intro r c hc
    rw [dropBlock_stack]
    by_cases hr : r = st.blockRow
    · subst hr
      by_cases hg : st.blockRow = 0 ∨ 0 < st.stackHeight
      · rw [placeScan_fst_at st hg c, if_neg]
        rintro ⟨col, _, ⟨⟨h0, h8⟩, _⟩, htn⟩
        omega
      · unfold placeScan
        rw [if_neg hg]
    · exact placeScan_fst_off st r c hr
  · intro hp0 hp4
    constructor
    · intro col hcol
      obtain ⟨h1, h2⟩ := mem_spanCols.mp hcol
      constructor <;> omega
    · intro hgo hbm
      unfold blockCells
      rw [if_pos ⟨hgo, hbm⟩, spanCols_eq]
      have c0 : 0 ≤ st.blockPos ∧ st.blockPos < (WIDTH : Int) := by omega
      have c1 : 0 ≤ st.blockPos + 1 ∧ st.blockPos + 1 < (WIDTH : Int) := by omega
      have c2 : 0 ≤ st.blockPos + 2 ∧ st.blockPos + 2 < (WIDTH : Int) := by omega
      have c3 : 0 ≤ st.blockPos + 3 ∧ st.blockPos + 3 < (WIDTH : Int) := by omega
      simp only [List.filterMap_cons, List.filterMap_nil, if_pos c0, if_pos c1,
        if_pos c2, if_pos c3]
      rfl

/-- C9 witness: the bounds evaluated at the concrete state stEx: the
placement loop skips column -1, the drop leaves column 8 untouched, and
all four span columns of the well-placed block are in range. -/
theorem C9_render_and_drop_bounds_witness :
    placeStep 1 (exStack, false) (-1) = (exStack, false) ∧
    (dropBlock stEx 3).stack 1 8 = stEx.stack 1 8 ∧
    (blockCells stEx).length = BLOCK_WIDTH := by
  have h := C9_render_and_drop_bounds stEx 3
  exact ⟨h.2.1 1 (exStack, false) (-1) (by decide), h.2.2.1 1 8 (by decide),
    ((h.2.2.2 (by decide) (by decide)).2 (by decide) (by decide))⟩

/-- C5: the stack height watermark is raised by a non-missed drop to
the maximum of itself and blockRow + 1 (so exactly to blockRow + 1 when
that exceeds it, and unchanged otherwise), is untouched by a missed
drop, by motion, by the diagnostic cursor and by entering diagnostic
mode, and the well-formedness invariant that stackHeight is one plus
the highest occupied row (or 0 on an empty grid) is established by
resetGame and preserved by dropBlock. -/
theorem C5_stackHeight_watermark (st : GameState) (rnd : Nat) :
    (¬((placeScan st).2 = false ∧ 0 < st.blockRow) →
      (dropBlock st rnd).stackHeight = max st.stackHeight (st.blockRow + 1) ∧
      (st.stackHeight < st.blockRow + 1 →
        (dropBlock st rnd).stackHeight = st.blockRow + 1) ∧
      (st.blockRow + 1 ≤ st.stackHeight →
        (dropBlock st rnd).stackHeight = st.stackHeight)) ∧
    ((placeScan st).2 = false ∧ 0 < st.blockRow →
      (dropBlock st rnd).stackHeight = st.stackHeight) ∧
    (moveBlock st).stackHeight = st.stackHeight ∧
    (advanceTestRow st).stackHeight = st.stackHeight ∧
    (st.testMode = false →
      (toggleTestMode st rnd).stackHeight = st.stackHeight) ∧
    heightWF (resetGame rnd) ∧
    (0 ≤ st.blockPos → st.blockPos ≤ maxPos → heightWF st →
      heightWF (dropBlock st rnd)) := by
  have hW : ((WIDTH : Int)) = 8 := rfl
  have hB : ((BLOCK_WIDTH : Int)) = 4 := rfl
  have hMP := maxPos_eq
  refine ⟨?_, ?_, ?_, ?_, ?_, ?_, ?_⟩
  · intro hok
    have hnm := newHeight_eq_max st
    unfold dropBlock
    rw [if_neg hok]
    split_ifs with htop
    · dsimp only
      exact ⟨hnm, fun _ => by omega, fun _ => by omega⟩
    · dsimp only
      exact ⟨hnm, fun _ => by omega, fun _ => by omega⟩
  · intro hm
    unfold dropBlock
    rw [if_pos hm]
  · unfold moveBlock
    split_ifs <;> rfl
  · unfold advanceTestRow
    split_ifs <;> rfl
  · intro h
    unfold toggleTestMode
    rw [if_neg (by rw [h]; exact Bool.false_ne_true)]
  · constructor
    · intro r c h
      dsimp only [resetGame] at h
      omega
    · intro h
      exact absurd h (Nat.lt_irrefl 0)
  · intro hp0 hp4 hwf
    obtain ⟨hwf1, hwf2⟩ := hwf
    by_cases hm : (placeScan st).2 = false ∧ 0 < st.blockRow
    · have hstack := placeScan_fst_of_not_placed st hm.1
      unfold dropBlock
      rw [if_pos hm]
      constructor
      · intro r c h
        dsimp only at h ⊢
        rw [hstack r c] at h
        exact hwf1 r c h
      · intro hh
        dsimp only at hh ⊢
        obtain ⟨c, hc8, hc1⟩ := hwf2 hh
        exact ⟨c, hc8, by rw [hstack _ c]; exact hc1⟩
    · have hg : st.blockRow = 0 ∨ 0 < st.stackHeight := by
        by_cases hr0 : st.blockRow = 0
        · exact Or.inl hr0
        · cases hb : (placeScan st).2 with
          | false => exact absurd ⟨hb, Nat.pos_of_ne_zero hr0⟩ hm
          | true => exact ((placeScan_snd st).mp hb).1
      have hplaced : (placeScan st).2 = true := by
        cases hb : (placeScan st).2 with
        | true => rfl
        | false =>
          have hr0 : st.blockRow = 0 := by
            by_contra hr0
            exact hm ⟨hb, Nat.pos_of_ne_zero hr0⟩
          have hmem : st.blockPos ∈ spanCols st.blockPos :=
            mem_spanCols.mpr ⟨le_refl _, by omega⟩
          have hl : lands st.stack st.blockRow st.blockPos :=
            ⟨⟨hp0, by omega⟩, Or.inl hr0⟩
          have hcon := (placeScan_snd st).mpr ⟨hg, st.blockPos, hmem, hl⟩
          rw [hb] at hcon
          exact absurd hcon Bool.false_ne_true
      have hkey1 : ∀ r c, (placeScan st).1 r c = 1 → r < newHeight st := by
        intro r c h
        have hnm := newHeight_eq_max st
        by_cases hr : r = st.blockRow
        · omega
        · rw [placeScan_fst_off st r c hr] at h
          have := hwf1 r c h
          omega
      have hkey2 : 0 < newHeight st →
          ∃ c, c < WIDTH ∧ (placeScan st).1 (newHeight st - 1) c = 1 := by
        intro hpos
        by_cases hcase : st.stackHeight ≤ st.blockRow
        · have hnh : newHeight st = st.blockRow + 1 := by
            unfold newHeight
            rw [if_pos hcase]
          obtain ⟨_, col, hmem, hl⟩ := (placeScan_snd st).mp hplaced
          obtain ⟨⟨h0, h8⟩, hor⟩ := hl
          refine ⟨col.toNat, by omega, ?_⟩
          rw [hnh]
          simp only [Nat.add_sub_cancel]
          rw [placeScan_fst_at st hg col.toNat,
            if_pos ⟨col, hmem, ⟨⟨h0, h8⟩, hor⟩, rfl⟩]
        · have hnh : newHeight st = st.stackHeight := by
            unfold newHeight
            rw [if_neg hcase]
          rw [hnh] at hpos ⊢
          obtain ⟨c, hc8, hc1⟩ := hwf2 hpos
          refine ⟨c, hc8, ?_⟩
          by_cases hr : st.stackHeight - 1 = st.blockRow
          · rw [hr, placeScan_fst_at st hg c]
            split_ifs with hex
            · rfl
            · rw [hr] at hc1
              exact hc1
          · rw [placeScan_fst_off st _ c hr]
            exact hc1
      unfold dropBlock
      rw [if_neg hm]
      split_ifs with htop
      · exact ⟨hkey1, hkey2⟩
      · exact ⟨hkey1, hkey2⟩

/-- C5 witness: the watermark behaviour evaluated concretely: the
worked-example drop raises the height from 1 to 2, the missed drop at
stMiss leaves it at 1, motion does not change it, and well-formedness
is preserved across the example drop. -/
theorem C5_stackHeight_watermark_witness :
    (dropBlock stEx 3).stackHeight = 2 ∧
    (dropBlock stMiss 0).stackHeight = 1 ∧
    (moveBlock stEx).stackHeight = 1 ∧
    heightWF (resetGame 2) ∧
    heightWF (dropBlock stEx 3) := by
  have h1 := C5_stackHeight_watermark stEx 3
  have h2 := C5_stackHeight_watermark stMiss 0
  have hwfEx : heightWF stEx := by
    constructor
    · intro r c h
      dsimp only [stEx, exStack] at h
      show r < 1
      split_ifs at h with hc
      omega
    · intro _
      exact ⟨2, by decide, by decide⟩
  refine ⟨?_, ?_, h1.2.2.1, h1.2.2.2.2.2.1, ?_⟩
  · have := (h1.1 (by decide)).2.1 (by decide)
    exact this
  · exact h2.2.1 (by decide)
  · exact h1.2.2.2.2.2.2 (by decide) (by decide) hwfEx

/-- C10: while the block is moving and the game is not over, blockRow
equals stackHeight: resetGame establishes both at 0, dropBlock
preserves the equality (a surviving drop advances both to the old row
plus one and keeps the row below HEIGHT), and motion, the diagnostic
cursor and entering diagnostic mode touch neither field. -/
theorem C10_block_rides_stack_top (st : GameState) (rnd : Nat) :
    ((resetGame rnd).blockRow = (resetGame rnd).stackHeight ∧
      (resetGame rnd).blockMoving = true ∧
      (resetGame rnd).gameOver = false) ∧
    (st.blockMoving = true → st.gameOver = false →
      st.blockRow = st.stackHeight →
      ((dropBlock st rnd).blockMoving = true →
        (dropBlock st rnd).gameOver = false →
        (dropBlock st rnd).blockRow = (dropBlock st rnd).stackHeight ∧
        (dropBlock st rnd).blockRow < HEIGHT)) ∧
    ((moveBlock st).blockRow = st.blockRow ∧
      (moveBlock st).stackHeight = st.stackHeight ∧
      (moveBlock st).blockMoving = st.blockMoving ∧
      (moveBlock st).gameOver = st.gameOver) ∧
    ((advanceTestRow st).blockRow = st.blockRow ∧
      (advanceTestRow st).stackHeight = st.stackHeight ∧
      (advanceTestRow st).blockMoving = st.blockMoving ∧
      (advanceTestRow st).gameOver = st.gameOver) ∧
    (st.testMode = false →
      (toggleTestMode st rnd).blockRow = st.blockRow ∧
      (toggleTestMode st rnd).stackHeight = st.stackHeight ∧
      (toggleTestMode st rnd).blockMoving = st.blockMoving ∧
      (toggleTestMode st rnd).gameOver = st.gameOver) := by
  have hH : HEIGHT = 32 := rfl
  refine ⟨⟨rfl, rfl, rfl⟩, ?_, ?_, ?_, ?_⟩
  · intro _ _ hinv
    have hnm := newHeight_eq_max st
    unfold dropBlock
    split_ifs with h1 h2
    · dsimp only
      intro habs
      exact absurd habs (by decide)
    · dsimp only
      intro _ habs
      exact absurd habs (by decide)
    · dsimp only
      intro _ _
      constructor
      · omega
      · omega
  · unfold moveBlock
    split_ifs <;> exact ⟨rfl, rfl, rfl, rfl⟩
  · unfold advanceTestRow
    split_ifs <;> exact ⟨rfl, rfl, rfl, rfl⟩
  · intro h
    unfold toggleTestMode
    rw [if_neg (by rw [h]; exact Bool.false_ne_true)]
    exact ⟨rfl, rfl, rfl, rfl⟩

/-- C10 witness: the invariant checked concretely across the
worked-example drop: the block at row 1 above a stack of height 1 lands
and the new state has the block at row 2 above a stack of height 2,
still below HEIGHT. -/
theorem C10_block_rides_stack_top_witness :
    (resetGame 2).blockRow = (resetGame 2).stackHeight ∧
    (dropBlock stEx 3).blockRow = (dropBlock stEx 3).stackHeight ∧
    (dropBlock stEx 3).blockRow < HEIGHT := by
  have h1 := (C10_block_rides_stack_top stEx 3).1.1
  have h2 := (C10_block_rides_stack_top stEx 3).2.1 (by decide) (by decide)
    (by decide) (by decide) (by decide)
  exact ⟨(C10_block_rides_stack_top stEx 2).1.1, h2.1, h2.2⟩

/-- C1 counterexample: the state stTop satisfies every precondition of
the claim (Playing, block moving, position within 0..WIDTH-BLOCK_WIDTH)
and the drop places at least one column (all four overlap the full row
below), yet the game does not stay alive: the drop tops out, gameOver
becomes true and the block stays at row 31 instead of advancing to row
32. -/
theorem C1_counterexample :
    stTop.gameOver = false ∧ stTop.blockMoving = true ∧
    0 ≤ stTop.blockPos ∧ stTop.blockPos ≤ maxPos ∧
    (placeScan stTop).2 = true ∧
    (dropBlock stTop 0).gameOver = true ∧
    (dropBlock stTop 0).blockRow = 31 ∧
    ¬(dropBlock stTop 0).blockRow = stTop.blockRow + 1 := by decide

/-- C1 amended: for a drop while Playing with the block at row r and
leftmost column p with 0 ≤ p ≤ WIDTH - BLOCK_WIDTH, every span column c
whose cell below is occupied (or r = 0) gets cell (r, c) occupied; and
if at least one column is placed AND the updated stack height
max(stackHeight, r + 1) is still below HEIGHT, the game stays alive:
gameOver stays false, the block advances to row r + 1 and respawns at
the random position, which is valid whenever the random contract
holds.  (The claim as frozen omits the height proviso; the
counterexample above forces it.) -/
theorem C1_drop_placement_and_survival (st : GameState) (rnd : Nat)
    (hgo : st.gameOver = false)
    (hp0 : 0 ≤ st.blockPos) (hp4 : st.blockPos ≤ maxPos)
    (hg : st.blockRow = 0 ∨ 0 < st.stackHeight) :
    (∀ c : Nat, st.blockPos ≤ (c : Int) →
      (c : Int) < st.blockPos + (BLOCK_WIDTH : Int) →
      (st.blockRow = 0 ∨ st.stack (st.blockRow - 1) c = 1) →
      (dropBlock st rnd).stack st.blockRow c = 1) ∧
    ((placeScan st).2 = true →
      max st.stackHeight (st.blockRow + 1) < HEIGHT →
      (dropBlock st rnd).gameOver = false ∧
      (dropBlock st rnd).blockMoving = true ∧
      (dropBlock st rnd).blockRow = st.blockRow + 1 ∧
      (dropBlock st rnd).blockPos = (rnd : Int) ∧
      (rnd < WIDTH - BLOCK_WIDTH + 1 →
        0 ≤ (dropBlock st rnd).blockPos ∧
        (dropBlock st rnd).blockPos ≤ maxPos)) := by
  have hW : ((WIDTH : Int)) = 8 := rfl
  have hB : ((BLOCK_WIDTH : Int)) = 4 := rfl
  have hMP := maxPos_eq
  have h5 : WIDTH - BLOCK_WIDTH + 1 = 5 := rfl
  constructor
  · intro c hc1 hc2 hor
    rw [dropBlock_stack, placeScan_fst_at st hg c, if_pos]
    have htn : ((c : Int)).toNat = c := by omega
    refine ⟨(c : Int), mem_spanCols.mpr ⟨hc1, hc2⟩,
      ⟨⟨by omega, by omega⟩, ?_⟩, htn⟩
    rcases hor with h0 | h1
    · exact Or.inl h0
    · refine Or.inr ?_
      rw [htn]
      exact h1
  · intro hpl htop
    unfold dropBlock
    rw [if_neg (by rintro ⟨hf, _⟩; rw [hpl] at hf; exact Bool.noConfusion hf),
      if_neg (by rw [newHeight_eq_max]; omega)]
    dsimp only
    refine ⟨hgo, rfl, rfl, rfl, ?_⟩
    intro hr
    constructor
    · omega
    · show (rnd : Int) ≤ maxPos
      omega

/-- C1 witness: the amended theorem evaluated at the worked-example
state stEx: columns 2 and 3 rest on the stack so cell (1,2) is placed,
the game stays alive and the block advances to row 2 at the fresh
position 3. -/
theorem C1_drop_placement_and_survival_witness :
    (dropBlock stEx 3).stack 1 2 = 1 ∧
    (dropBlock stEx 3).gameOver = false ∧
    (dropBlock stEx 3).blockRow = 2 ∧
    (dropBlock stEx 3).blockPos = 3 := by
  have h := C1_drop_placement_and_survival stEx 3 (by decide) (by decide)
    (by decide) (by decide)
  have h2 := h.2 (by decide) (by decide)
  exact ⟨h.1 2 (by decide) (by decide) (by decide), h2.1, h2.2.2.1, h2.2.2.2.1⟩

/-- C3: for a non-missed drop, if the updated stack height
max(stackHeight, blockRow + 1) reaches HEIGHT the game ends and the
block does not advance; if it stays below HEIGHT the block row is
incremented instead and the game-over flag is untouched. -/
theorem C3_top_out_or_advance (st : GameState) (rnd : Nat)
    (hpl : ¬((placeScan st).2 = false ∧ 0 < st.blockRow)) :
    (HEIGHT ≤ max st.stackHeight (st.blockRow + 1) →
      (dropBlock st rnd).gameOver = true ∧
      (dropBlock st rnd).blockRow = st.blockRow ∧
      (dropBlock st rnd).blockMoving = false ∧
      (dropBlock st rnd).stackHeight = max st.stackHeight (st.blockRow + 1)) ∧
    (max st.stackHeight (st.blockRow + 1) < HEIGHT →
      (dropBlock st rnd).blockRow = st.blockRow + 1 ∧
      (dropBlock st rnd).gameOver = st.gameOver ∧
      (dropBlock st rnd).blockMoving = true ∧
      (dropBlock st rnd).stackHeight = max st.stackHeight (st.blockRow + 1)) := by
  have hnm := newHeight_eq_max st
  unfold dropBlock
  rw [if_neg hpl]
  constructor
  · intro h
    rw [if_pos (by omega)]
    dsimp only
    exact ⟨rfl, rfl, rfl, hnm⟩
  · intro h
    rw [if_neg (by omega)]
    dsimp only
    exact ⟨rfl, rfl, rfl, hnm⟩

/-- C3 witness: the topping-out drop evaluated at stTop (gameOver set,
block stays at its row) and the surviving drop evaluated at stEx (block
advances to row 2). -/
theorem C3_top_out_or_advance_witness :
    (dropBlock stTop 0).gameOver = true ∧
    (dropBlock stTop 0).blockRow = stTop.blockRow ∧
    (dropBlock stEx 3).blockRow = 2 := by
  have ht := (C3_top_out_or_advance stTop 0 (by decide)).1 (by decide)
  have he := (C3_top_out_or_advance stEx 3 (by decide)).2 (by decide)
  exact ⟨ht.1, ht.2.1, he.1⟩

end StackGame
